import Mathlib

/-!
Verification of the adaptive concurrency controller in
`src/sinks/util/auto_concurrency/controller.rs`.

The Rust source is shallowly embedded here:
* `f64` time and latency quantities are modelled as rationals (`ℚ`); the
  claims under study concern control flow and integer permit accounting,
  never floating-point rounding.
* `Instant` values are rationals (seconds on a monotone clock), and
  `Instant::saturating_duration_since` becomes `max (now - start) 0`.
* The `tokio::sync::Semaphore` is modelled as a pair of counters:
  `available` (permits in the pool) and `outstanding` (permits currently
  held by callers; a ghost counter used to state claims about checked-out
  permits).  `try_acquire().forget()` removes a permit from `available`
  without touching `outstanding`; dropping a held permit (release) moves
  one from `outstanding` back to `available`; `add_permits 1` increments
  `available`.
* `MaybeForgetFuture::poll` is modelled as a single synchronous step
  `Controller.acquirePoll`: it first pays down `to_forget` from the
  available pool (each loop iteration acquires a permit and forgets it),
  then either grants a permit (`true`) or reports `Pending` (`false`).
-/

set_option autoImplicit false

namespace AutoConcurrency

/-- EWMA_ALPHA constant from controller.rs line 11. -/
def EWMA_ALPHA : ℚ := 1 / 2

/-- THRESHOLD_RATIO constant from controller.rs line 12 (lowercased name). -/
def thresholdRatio : ℚ := 1 / 100

/-- EWMA accumulator, controller.rs lines 14-17. `average = 0` means unseeded. -/
structure EWMA where
  average : ℚ
deriving DecidableEq

/-- EWMA.update, controller.rs lines 24-30: seed when the average is zero,
otherwise fold with weight `EWMA_ALPHA`; returns the new average together
with the updated state. -/
def EWMA.update (e : EWMA) (point : ℚ) : ℚ × EWMA :=
  let avg := if e.average = 0 then point
             else point * EWMA_ALPHA + e.average * (1 - EWMA_ALPHA)
  (avg, ⟨avg⟩)

/-- Mean accumulator, controller.rs lines 33-37. -/
structure Mean where
  sum : ℚ
  count : Nat
deriving DecidableEq

/-- Mean.update, controller.rs lines 40-45: add the point, bump the count,
and return the current average `sum / max(count, 1)` with the new state. -/
def Mean.update (m : Mean) (point : ℚ) : ℚ × Mean :=
  let sum := m.sum + point
  let count := m.count + 1
  (sum / ((Nat.max count 1 : Nat) : ℚ), ⟨sum, count⟩)

/-- Mean.reset, controller.rs lines 47-50: both fields return to zero. -/
def Mean.reset : Mean := ⟨0, 0⟩

/-- ResponseType, controller.rs lines 53-58. -/
inductive ResponseType where
  | Normal
  | BackPressure
  | Other
deriving DecidableEq

/-- Model of the `tokio::sync::Semaphore` permit pool.  `available` counts
permits in the pool; `outstanding` counts permits held by callers. -/
structure Semaphore where
  available : Nat
  outstanding : Nat
deriving DecidableEq

/-- Inner, controller.rs lines 73-81. -/
structure Inner where
  current : Nat
  to_forget : Nat
  past_rtt : EWMA
  next_update : ℚ
  current_rtt : Mean
  had_back_pressure : Bool
deriving DecidableEq

/-- Controller, controller.rs lines 66-71 (the semaphore is inlined). -/
structure Controller where
  sem : Semaphore
  max : Nat
  inner : Inner
deriving DecidableEq

/-- Controller.new, controller.rs lines 84-97: the semaphore starts with
`current` permits, the EWMA and the mean start at their defaults, and
`next_update` is the construction instant `t0`. -/
def Controller.new (mx cur : Nat) (t0 : ℚ) : Controller :=
  ⟨⟨cur, 0⟩, mx, ⟨cur, 0, ⟨0⟩, t0, ⟨0, 0⟩, false⟩⟩

/-- Rtt computation of controller.rs line 121:
`now.saturating_duration_since(start).as_secs_f64()`; the saturation at
zero is written as an explicit conditional (equal to `max (now - start) 0`). -/
def rttOf (start now : ℚ) : ℚ := if now - start < 0 then 0 else now - start

/-- Back-pressure marking of controller.rs lines 123-125. -/
def Inner.noteResponse (i : Inner) (response : ResponseType) : Inner :=
  if response = ResponseType.BackPressure then { i with had_back_pressure := true } else i

/-- Forget loop of controller.rs lines 141-146: repeat `n` times; when a
permit is available, `try_acquire` succeeds and the permit is forgotten
(removed from the pool for good), otherwise `to_forget` is incremented. -/
def forgetLoop : Nat → Semaphore → Nat → Semaphore × Nat
  | 0, s, f => (s, f)
  | Nat.succ n, s, f =>
    if 0 < s.available then forgetLoop n { s with available := s.available - 1 } f
    else forgetLoop n s (f + 1)

/-- Decision block of controller.rs lines 130-158, entered only when the
baseline is seeded and the decision instant has been reached.  `rtt2` is
the freshly computed window mean. -/
def decisionBody (mx : Nat) (sem : Semaphore) (i : Inner) (now rtt2 : ℚ) :
    Semaphore × Inner :=
  let avg := i.past_rtt.average
  let threshold := avg * thresholdRatio
  let si :=
    if 1 < i.current ∧ (i.had_back_pressure = true ∨ rtt2 ≥ avg + threshold) then
      let newCurrent := i.current / 2
      let fl := forgetLoop (i.current - newCurrent) sem i.to_forget
      (fl.1, { i with current := newCurrent, to_forget := fl.2 })
    else if i.current < mx ∧ i.had_back_pressure = false ∧ rtt2 ≤ avg then
      ({ sem with available := sem.available + 1 },
       { i with current := i.current + 1, to_forget := i.to_forget - 1 })
    else (sem, i)
  let em := si.2.past_rtt.update rtt2
  (si.1, { si.2 with past_rtt := em.2, next_update := now + em.1 })

/-- Window mean the call compares against the baseline: the value returned
by `inner.current_rtt.update(rtt)` at controller.rs line 127. -/
def Controller.windowRtt (c : Controller) (start now : ℚ) : ℚ :=
  (c.inner.current_rtt.update (rttOf start now)).1

/-- Inner state right after controller.rs lines 123-127: back pressure
marked and the sample folded into the window mean (state component of the
same `update` call whose returned value is `Controller.windowRtt`). -/
def Controller.preInner (c : Controller) (start now : ℚ) (response : ResponseType) : Inner :=
  { c.inner.noteResponse response with
    current_rtt := ((c.inner.noteResponse response).current_rtt.update (rttOf start now)).2 }

/-- Controller._adjust_to_response, controller.rs lines 119-163: mark back
pressure, fold the sample into the window mean, run the decision block when
`avg > 0 ∧ now ≥ next_update`, then unconditionally clear
`had_back_pressure` and reset the window mean. -/
def Controller.adjust_to_response (c : Controller) (start now : ℚ)
    (response : ResponseType) : Controller :=
  let i2 := c.preInner start now response
  let si :=
    if 0 < i2.past_rtt.average ∧ i2.next_update ≤ now then
      decisionBody c.max c.sem i2 now (c.windowRtt start now)
    else (c.sem, i2)
  { c with sem := si.1,
           inner := { si.2 with had_back_pressure := false, current_rtt := Mean.reset } }

/-- Outcome classification of controller.rs lines 107-117: `Ok` is Normal,
an error that reports back pressure is BackPressure, any other error is
Other. -/
def classify {T E : Type} (isbp : E → Bool) : Except E T → ResponseType
  | Except.ok _ => ResponseType.Normal
  | Except.error e => if isbp e then ResponseType.BackPressure else ResponseType.Other

/-- MaybeForgetFuture::poll, controller.rs lines 174-189, as one synchronous
step: pay down `to_forget` from the available pool (each loop iteration
acquires one available permit and forgets it), then grant a permit when one
remains (`true`) or report Pending (`false`). -/
def Controller.acquirePoll (c : Controller) : Bool × Controller :=
  let pay := Nat.min c.inner.to_forget c.sem.available
  let avail := c.sem.available - pay
  let tf := c.inner.to_forget - pay
  if 0 < avail then
    (true, { c with sem := ⟨avail - 1, c.sem.outstanding + 1⟩,
                    inner := { c.inner with to_forget := tf } })
  else
    (false, { c with sem := { c.sem with available := avail },
                     inner := { c.inner with to_forget := tf } })

/-- Release of a held permit: dropping a `tokio::sync::OwnedSemaphorePermit`
returns it to the semaphore pool.  A release only happens while a permit is
held, hence the `outstanding` guard. -/
def Controller.release (c : Controller) : Controller :=
  if 0 < c.sem.outstanding then
    { c with sem := ⟨c.sem.available + 1, c.sem.outstanding - 1⟩ }
  else c

/-- Shrink primitive used by the decrease branch of
controller.rs lines 141-147, lifted to the controller state: run the forget
loop for `n` permits against the pool and the pending forget count. -/
def Controller.forgetPermits (c : Controller) (n : Nat) : Controller :=
  let fl := forgetLoop n c.sem c.inner.to_forget
  { c with sem := fl.1, inner := { c.inner with to_forget := fl.2 } }

/-- Operations the dispatch layer can perform on a controller. -/
inductive Op where
  | adjust (start now : ℚ) (response : ResponseType)
  | acquire
  | release
deriving DecidableEq

/-- Single operation step. -/
def stepOp (c : Controller) : Op → Controller
  | Op.adjust start now response => c.adjust_to_response start now response
  | Op.acquire => (c.acquirePoll).2
  | Op.release => c.release

/-- Run a sequence of operations. -/
def runOps (c : Controller) : List Op → Controller
  | [] => c
  | op :: ops => runOps (stepOp c op) ops

/-- Release applied `n` times (all held permits dropped one by one). -/
def releasesN : Nat → Controller → Controller
  | 0, c => c
  | Nat.succ n, c => releasesN n c.release

/-- Repeated acquire polls: `true` when all `n` polls granted a permit. -/
def acquireRuns : Nat → Controller → Bool × Controller
  | 0, c => (true, c)
  | Nat.succ n, c =>
    if (c.acquirePoll).1 then acquireRuns n (c.acquirePoll).2
    else (false, (c.acquirePoll).2)

/-! ## Helper lemmas -/

/-- Closed form of the forget loop: the pool loses `min n available` permits
and the remainder of the `n` requested removals becomes pending debt. -/
theorem forgetLoop_spec (n : Nat) (s : Semaphore) (f : Nat) :
    forgetLoop n s f = (⟨s.available - n, s.outstanding⟩, f + (n - s.available)) := by
  induction n generalizing s f with
  | zero => simp [forgetLoop]
  | succ n ih =>
    rcases s with ⟨a, o⟩
    by_cases h : 0 < a
    · rw [forgetLoop, if_pos h, ih]
      simp only [Prod.mk.injEq, Semaphore.mk.injEq, and_true]
      omega
    · rw [forgetLoop, if_neg h, ih]
      simp only [Prod.mk.injEq, Semaphore.mk.injEq, and_true]
      omega

/-- Projections of `Inner.noteResponse`: only `had_back_pressure` changes. -/
@[simp] theorem noteResponse_past_rtt (i : Inner) (r : ResponseType) :
    (i.noteResponse r).past_rtt = i.past_rtt := by
  unfold Inner.noteResponse; split <;> rfl

@[simp] theorem noteResponse_current (i : Inner) (r : ResponseType) :
    (i.noteResponse r).current = i.current := by
  unfold Inner.noteResponse; split <;> rfl

@[simp] theorem noteResponse_to_forget (i : Inner) (r : ResponseType) :
    (i.noteResponse r).to_forget = i.to_forget := by
  unfold Inner.noteResponse; split <;> rfl

@[simp] theorem noteResponse_next_update (i : Inner) (r : ResponseType) :
    (i.noteResponse r).next_update = i.next_update := by
  unfold Inner.noteResponse; split <;> rfl

@[simp] theorem noteResponse_current_rtt (i : Inner) (r : ResponseType) :
    (i.noteResponse r).current_rtt = i.current_rtt := by
  unfold Inner.noteResponse; split <;> rfl

/-- Back-pressure flag after `noteResponse`. -/
theorem noteResponse_hbp (i : Inner) (r : ResponseType) :
    ((i.noteResponse r).had_back_pressure = true ↔
      (i.had_back_pressure = true ∨ r = ResponseType.BackPressure)) := by
  unfold Inner.noteResponse; split <;> simp_all

/-- Projections of `Controller.preInner`. -/
@[simp] theorem preInner_past_rtt (c : Controller) (start now : ℚ) (r : ResponseType) :
    (c.preInner start now r).past_rtt = c.inner.past_rtt := by
  simp [Controller.preInner]

@[simp] theorem preInner_current (c : Controller) (start now : ℚ) (r : ResponseType) :
    (c.preInner start now r).current = c.inner.current := by
  simp [Controller.preInner]

@[simp] theorem preInner_to_forget (c : Controller) (start now : ℚ) (r : ResponseType) :
    (c.preInner start now r).to_forget = c.inner.to_forget := by
  simp [Controller.preInner]

@[simp] theorem preInner_next_update (c : Controller) (start now : ℚ) (r : ResponseType) :
    (c.preInner start now r).next_update = c.inner.next_update := by
  simp [Controller.preInner]

@[simp] theorem preInner_hbp (c : Controller) (start now : ℚ) (r : ResponseType) :
    (c.preInner start now r).had_back_pressure = (c.inner.noteResponse r).had_back_pressure := by
  simp [Controller.preInner]

/-- When the decision guard is false the call only clears
`had_back_pressure` and resets the window mean. -/
theorem adjust_noDecision (c : Controller) (start now : ℚ) (r : ResponseType)
    (hng : ¬ (0 < c.inner.past_rtt.average ∧ c.inner.next_update ≤ now)) :
    c.adjust_to_response start now r =
      { c with inner :=
          { c.inner with had_back_pressure := false, current_rtt := Mean.reset } } := by
  have hng2 : ¬ (0 < (c.preInner start now r).past_rtt.average ∧
      (c.preInner start now r).next_update ≤ now) := by simpa using hng
  simp only [Controller.adjust_to_response]
  rw [if_neg hng2]
  obtain ⟨sem, mx, ⟨cur, tf, pr, nu, crt, hbp⟩⟩ := c
  simp only [Controller.preInner, Inner.noteResponse, Mean.reset]
  split <;> simp

/-- With an unseeded baseline the decision guard is false, so a call only
clears `had_back_pressure` and resets the window mean. -/
theorem adjust_unseeded (c : Controller) (start now : ℚ) (r : ResponseType)
    (h : c.inner.past_rtt.average = 0) :
    c.adjust_to_response start now r =
      { c with inner :=
          { c.inner with had_back_pressure := false, current_rtt := Mean.reset } } := by
  refine adjust_noDecision c start now r ?_
  rintro ⟨h1, -⟩
  rw [h] at h1
  exact lt_irrefl 0 h1

/-- With a seeded baseline at a due decision instant, the call defers to
the decision body applied to the marked-and-folded inner state. -/
theorem adjust_seeded (c : Controller) (start now : ℚ) (r : ResponseType)
    (hseed : 0 < c.inner.past_rtt.average) (htime : c.inner.next_update ≤ now) :
    c.adjust_to_response start now r =
      { c with
        sem := (decisionBody c.max c.sem (c.preInner start now r) now
          (c.windowRtt start now)).1,
        inner := { (decisionBody c.max c.sem (c.preInner start now r) now
          (c.windowRtt start now)).2 with
            had_back_pressure := false, current_rtt := Mean.reset } } := by
  simp only [Controller.adjust_to_response]
  rw [if_pos ⟨by simpa using hseed, by simpa using htime⟩]

/-- With any call arriving before the decision instant, the decision block
is skipped. -/
theorem adjust_skipped (c : Controller) (start now : ℚ) (r : ResponseType)
    (htime : now < c.inner.next_update) :
    c.adjust_to_response start now r =
      { c with inner :=
          { c.inner with had_back_pressure := false, current_rtt := Mean.reset } } := by
  refine adjust_noDecision c start now r ?_
  rintro ⟨-, h2⟩
  exact absurd h2 (not_le.mpr htime)

/-- Decrease branch of the decision block: concurrency is halved and the
shortfall between requested removals and available permits becomes debt. -/
theorem decisionBody_decrease (mx : Nat) (sem : Semaphore) (i : Inner) (now rtt2 : ℚ)
    (hcond : 1 < i.current ∧ (i.had_back_pressure = true ∨
      rtt2 ≥ i.past_rtt.average + i.past_rtt.average * thresholdRatio)) :
    (decisionBody mx sem i now rtt2).1 =
        ⟨sem.available - (i.current - i.current / 2), sem.outstanding⟩ ∧
    (decisionBody mx sem i now rtt2).2.current = i.current / 2 ∧
    (decisionBody mx sem i now rtt2).2.to_forget =
        i.to_forget + ((i.current - i.current / 2) - sem.available) := by
  simp only [decisionBody]
  rw [if_pos hcond]
  simp [forgetLoop_spec]

/-- Increase branch of the decision block: one permit is added and the
pending forget count is saturating-subtracted by one. -/
theorem decisionBody_increase (mx : Nat) (sem : Semaphore) (i : Inner) (now rtt2 : ℚ)
    (hnot : ¬ (1 < i.current ∧ (i.had_back_pressure = true ∨
      rtt2 ≥ i.past_rtt.average + i.past_rtt.average * thresholdRatio)))
    (hcond : i.current < mx ∧ i.had_back_pressure = false ∧
      rtt2 ≤ i.past_rtt.average) :
    (decisionBody mx sem i now rtt2).1 = { sem with available := sem.available + 1 } ∧
    (decisionBody mx sem i now rtt2).2.current = i.current + 1 ∧
    (decisionBody mx sem i now rtt2).2.to_forget = i.to_forget - 1 := by
  simp only [decisionBody]
  rw [if_neg hnot, if_pos hcond]
  simp

/-- Inconclusive band of the decision block: nothing changes except the
baseline fold and the next decision instant. -/
theorem decisionBody_none (mx : Nat) (sem : Semaphore) (i : Inner) (now rtt2 : ℚ)
    (hnot1 : ¬ (1 < i.current ∧ (i.had_back_pressure = true ∨
      rtt2 ≥ i.past_rtt.average + i.past_rtt.average * thresholdRatio)))
    (hnot2 : ¬ (i.current < mx ∧ i.had_back_pressure = false ∧
      rtt2 ≤ i.past_rtt.average)) :
    (decisionBody mx sem i now rtt2).1 = sem ∧
    (decisionBody mx sem i now rtt2).2.current = i.current ∧
    (decisionBody mx sem i now rtt2).2.to_forget = i.to_forget := by
  simp only [decisionBody]
  rw [if_neg hnot1, if_neg hnot2]
  simp

/-- Every decision reschedules: the next decision instant is the current
instant plus the freshly folded baseline. -/
theorem decisionBody_next_update (mx : Nat) (sem : Semaphore) (i : Inner) (now rtt2 : ℚ) :
    (decisionBody mx sem i now rtt2).2.next_update =
      now + (decisionBody mx sem i now rtt2).2.past_rtt.average := by
  simp only [decisionBody, EWMA.update]

/-- Case split on what the decision block does to `current`. -/
theorem decisionBody_current_cases (mx : Nat) (sem : Semaphore) (i : Inner) (now rtt2 : ℚ) :
    (1 < i.current ∧ (decisionBody mx sem i now rtt2).2.current = i.current / 2) ∨
    (i.current < mx ∧ (decisionBody mx sem i now rtt2).2.current = i.current + 1) ∨
    (decisionBody mx sem i now rtt2).2.current = i.current := by
  simp only [decisionBody]
  split_ifs with h1 h2
  · exact Or.inl ⟨h1.1, by simp⟩
  · exact Or.inr (Or.inl ⟨h2.1, by simp⟩)
  · exact Or.inr (Or.inr (by simp))

/-- The decision block never touches outstanding permits: callers holding
a permit are never revoked. -/
theorem decisionBody_outstanding (mx : Nat) (sem : Semaphore) (i : Inner) (now rtt2 : ℚ) :
    (decisionBody mx sem i now rtt2).1.outstanding = sem.outstanding := by
  simp only [decisionBody]
  split_ifs <;> simp [forgetLoop_spec]

/-- Max field is never modified by an adjust call. -/
theorem adjust_max (c : Controller) (start now : ℚ) (r : ResponseType) :
    (c.adjust_to_response start now r).max = c.max := by
  simp [Controller.adjust_to_response]

/-- Effect of one acquire poll on everything except the permit counters,
plus the permit-debt accounting balance. -/
theorem acquirePoll_spec (c : Controller) :
    ((c.acquirePoll).2).inner.past_rtt = c.inner.past_rtt ∧
    ((c.acquirePoll).2).inner.current = c.inner.current ∧
    ((c.acquirePoll).2).max = c.max ∧
    ((c.acquirePoll).2).sem.outstanding + ((c.acquirePoll).2).sem.available +
        c.inner.to_forget =
      c.sem.outstanding + c.sem.available + ((c.acquirePoll).2).inner.to_forget := by
  obtain ⟨⟨a, o⟩, mx, ⟨cur, tf, pr, nu, crt, hbp⟩⟩ := c
  simp only [Controller.acquirePoll, Nat.min_def]
  split_ifs with h0 h1 h2 <;> refine ⟨rfl, rfl, rfl, ?_⟩ <;> simp only <;> omega

/-- Effect of a release: the permit returns to the pool; the controller
inner state is untouched. -/
theorem release_spec (c : Controller) :
    (c.release).inner = c.inner ∧ (c.release).max = c.max ∧
    (c.release).sem.outstanding + (c.release).sem.available =
      c.sem.outstanding + c.sem.available := by
  obtain ⟨⟨a, o⟩, mx, i⟩ := c
  simp only [Controller.release]
  split_ifs with h
  · refine ⟨rfl, rfl, ?_⟩
    simp only
    omega
  · exact ⟨rfl, rfl, rfl⟩

/-- Invariance scaffold over operation sequences. -/
theorem runOps_inv (P : Controller → Prop)
    (hstep : ∀ c op, P c → P (stepOp c op)) (ops : List Op) :
    ∀ c : Controller, P c → P (runOps c ops) := by
  induction ops with
  | nil => intro c h; exact h
  | cons op ops ih => intro c h; exact ih _ (hstep c op h)

/-- One step preserves the unseeded-baseline property. -/
theorem stepOp_unseeded (c : Controller) (op : Op)
    (h : c.inner.past_rtt.average = 0) :
    (stepOp c op).inner.past_rtt.average = 0 := by
  cases op with
  | adjust start now r =>
    show (c.adjust_to_response start now r).inner.past_rtt.average = 0
    rw [adjust_unseeded c start now r h]
    exact h
  | acquire =>
    show ((c.acquirePoll).2).inner.past_rtt.average = 0
    rw [(acquirePoll_spec c).1]
    exact h
  | release =>
    show (c.release).inner.past_rtt.average = 0
    rw [(release_spec c).1]
    exact h

/-- An adjust call keeps `current` within `1 ≤ current ≤ max`: the
decrease branch requires `current > 1` before halving, and the increase
branch requires `current < max` before adding one. -/
theorem adjust_current_bounds (c : Controller) (start now : ℚ) (r : ResponseType)
    (h1 : 1 ≤ c.inner.current) (h2 : c.inner.current ≤ c.max) :
    1 ≤ (c.adjust_to_response start now r).inner.current ∧
    (c.adjust_to_response start now r).inner.current ≤ c.max := by
  by_cases hg : 0 < c.inner.past_rtt.average ∧ c.inner.next_update ≤ now
  · rw [adjust_seeded c start now r hg.1 hg.2]
    show 1 ≤ (decisionBody c.max c.sem (c.preInner start now r) now
        (c.windowRtt start now)).2.current ∧
      (decisionBody c.max c.sem (c.preInner start now r) now
        (c.windowRtt start now)).2.current ≤ c.max
    rcases decisionBody_current_cases c.max c.sem (c.preInner start now r) now
        (c.windowRtt start now) with h | h | h <;> rw [preInner_current] at h
    · rw [h.2]
      have h3 := h.1
      omega
    · rw [h.2]
      have h3 := h.1
      omega
    · rw [h]
      exact ⟨h1, h2⟩
  · rw [adjust_noDecision c start now r hg]
    simpa using ⟨h1, h2⟩

/-- One step preserves the concurrency bounds `1 ≤ current ≤ max` together
with the constancy of `max`. -/
theorem stepOp_current_bounds (mx : Nat) (c : Controller) (op : Op)
    (h : 1 ≤ c.inner.current ∧ c.inner.current ≤ c.max ∧ c.max = mx) :
    1 ≤ (stepOp c op).inner.current ∧
      (stepOp c op).inner.current ≤ (stepOp c op).max ∧ (stepOp c op).max = mx := by
  obtain ⟨h1, h2, h3⟩ := h
  cases op with
  | adjust start now r =>
    simp only [stepOp, adjust_max]
    have hb := adjust_current_bounds c start now r h1 h2
    exact ⟨hb.1, hb.2, h3⟩
  | acquire =>
    simp only [stepOp]
    have hs := acquirePoll_spec c
    rw [hs.2.1, hs.2.2.1]
    exact ⟨h1, h2, h3⟩
  | release =>
    simp only [stepOp]
    have hs := release_spec c
    rw [hs.1, hs.2.1]
    exact ⟨h1, h2, h3⟩

/-- One step preserves the permit accounting balance
`outstanding + available = current + to_forget`, given the baseline is
dead (so adjust calls never enter the decision block). -/
theorem stepOp_accounting (c : Controller) (op : Op)
    (h : c.inner.past_rtt.average = 0 ∧
      c.sem.outstanding + c.sem.available = c.inner.current + c.inner.to_forget) :
    (stepOp c op).inner.past_rtt.average = 0 ∧
      (stepOp c op).sem.outstanding + (stepOp c op).sem.available =
        (stepOp c op).inner.current + (stepOp c op).inner.to_forget := by
  obtain ⟨h0, hb⟩ := h
  refine ⟨stepOp_unseeded c op h0, ?_⟩
  cases op with
  | adjust start now r =>
    simp only [stepOp]
    rw [adjust_unseeded c start now r h0]
    simpa using hb
  | acquire =>
    simp only [stepOp]
    have hs := acquirePoll_spec c
    rw [hs.2.1]
    omega
  | release =>
    simp only [stepOp]
    have hs := release_spec c
    rw [hs.1]
    omega

/-! ## Claim C1 -/

/-- Claim C1 as stated is false: on a newly constructed controller the
first `adjust_to_response` call with elapsed time `rttOf 0 1 = 1` and a
non-backpressure outcome does NOT seed the baseline EWMA to the elapsed
time; the baseline stays `0`, because the only fold into the baseline sits
inside the decision branch, which requires an already positive baseline. -/
theorem claim1_counterexample :
    ((Controller.new 10 1 0).adjust_to_response 0 1 ResponseType.Normal).inner.past_rtt.average
      ≠ rttOf 0 1 := by
  rw [adjust_unseeded _ _ _ _ rfl]
  show (0 : ℚ) ≠ rttOf 0 1
  norm_num [rttOf]

/-- Claim C1 (amended): for a newly constructed controller, the first
`adjust_to_response` call with a non-backpressure outcome executes no
decision branch, and the baseline EWMA remains 0 (unseeded); `current`,
the semaphore, the pending forget count and the next decision instant are
all untouched. -/
theorem claim1_first_call (mx cur : Nat) (t0 start now : ℚ) (r : ResponseType)
    (hr : r ≠ ResponseType.BackPressure) :
    ((Controller.new mx cur t0).adjust_to_response start now r).inner.past_rtt.average = 0 ∧
    ((Controller.new mx cur t0).adjust_to_response start now r).inner.current = cur ∧
    ((Controller.new mx cur t0).adjust_to_response start now r).sem =
      (Controller.new mx cur t0).sem ∧
    ((Controller.new mx cur t0).adjust_to_response start now r).inner.to_forget = 0 ∧
    ((Controller.new mx cur t0).adjust_to_response start now r).inner.next_update = t0 := by
  rw [adjust_unseeded (Controller.new mx cur t0) start now r rfl]
  simp [Controller.new]

/-- Witness for claim C1 (amended) at concrete inputs. -/
theorem claim1_witness :
    ((Controller.new 10 1 0).adjust_to_response 0 1 ResponseType.Normal).inner.past_rtt.average = 0 ∧
    ((Controller.new 10 1 0).adjust_to_response 0 1 ResponseType.Normal).inner.current = 1 ∧
    ((Controller.new 10 1 0).adjust_to_response 0 1 ResponseType.Normal).sem =
      (Controller.new 10 1 0).sem ∧
    ((Controller.new 10 1 0).adjust_to_response 0 1 ResponseType.Normal).inner.to_forget = 0 ∧
    ((Controller.new 10 1 0).adjust_to_response 0 1 ResponseType.Normal).inner.next_update = 0 :=
  claim1_first_call 10 1 0 0 1 ResponseType.Normal (by decide)

/-! ## Claim C2 -/

/-- Claim C2: from any freshly constructed controller and after any
sequence of operations, the baseline EWMA `past_rtt` is still 0, and a
further `adjust_to_response` call changes neither `current`, nor the
semaphore's permit counters, nor the pending forget count: the decision
block is dead code, because the only update of `past_rtt` is guarded by
`past_rtt` being already positive. -/
theorem claim2_decision_block_dead (mx cur : Nat) (t0 : ℚ) (ops : List Op) :
    (runOps (Controller.new mx cur t0) ops).inner.past_rtt.average = 0 ∧
    ∀ (start now : ℚ) (r : ResponseType),
      ((runOps (Controller.new mx cur t0) ops).adjust_to_response start now r).inner.current
        = (runOps (Controller.new mx cur t0) ops).inner.current ∧
      ((runOps (Controller.new mx cur t0) ops).adjust_to_response start now r).sem
        = (runOps (Controller.new mx cur t0) ops).sem ∧
      ((runOps (Controller.new mx cur t0) ops).adjust_to_response start now r).inner.to_forget
        = (runOps (Controller.new mx cur t0) ops).inner.to_forget := by
  have h0 : (runOps (Controller.new mx cur t0) ops).inner.past_rtt.average = 0 :=
    runOps_inv (fun c => c.inner.past_rtt.average = 0) stepOp_unseeded ops
      (Controller.new mx cur t0) rfl
  refine ⟨h0, fun start now r => ?_⟩
  rw [adjust_unseeded _ start now r h0]
  simp

/-! ## Claim C3 -/

/-- Claim C3: for a controller constructed with `1 ≤ initial ≤ max`, the
invariant `1 ≤ current ≤ max` holds in every reachable state. -/
theorem claim3_current_bounds (mx cur : Nat) (t0 : ℚ) (ops : List Op)
    (h1 : 1 ≤ cur) (h2 : cur ≤ mx) :
    1 ≤ (runOps (Controller.new mx cur t0) ops).inner.current ∧
    (runOps (Controller.new mx cur t0) ops).inner.current ≤ mx := by
  have h := runOps_inv
    (fun c => 1 ≤ c.inner.current ∧ c.inner.current ≤ c.max ∧ c.max = mx)
    (fun c op hc => stepOp_current_bounds mx c op hc) ops
    (Controller.new mx cur t0) ⟨h1, h2, rfl⟩
  obtain ⟨ha, hb, hc⟩ := h
  rw [hc] at hb
  exact ⟨ha, hb⟩

/-- Witness for claim C3 at concrete inputs, exercising an adjust call, an
acquire poll and a release. -/
theorem claim3_witness :
    1 ≤ (runOps (Controller.new 10 3 0)
        [Op.acquire, Op.adjust 0 1 ResponseType.Normal, Op.release]).inner.current ∧
    (runOps (Controller.new 10 3 0)
        [Op.acquire, Op.adjust 0 1 ResponseType.Normal, Op.release]).inner.current ≤ 10 :=
  claim3_current_bounds 10 3 0 [Op.acquire, Op.adjust 0 1 ResponseType.Normal, Op.release]
    (by decide) (by decide)

/-! ## Claim C4 -/

/-- Claim C4: in every reachable state (in particular after every
`adjust_to_response` call), the semaphore's effective capacity, that is
permits outstanding plus permits available minus the pending forget debt,
equals `current`. -/
theorem claim4_effective_capacity (mx cur : Nat) (t0 : ℚ) (ops : List Op) :
    ((runOps (Controller.new mx cur t0) ops).sem.outstanding : ℤ) +
      ((runOps (Controller.new mx cur t0) ops).sem.available : ℤ) -
      ((runOps (Controller.new mx cur t0) ops).inner.to_forget : ℤ) =
    ((runOps (Controller.new mx cur t0) ops).inner.current : ℤ) := by
  have h := runOps_inv
    (fun c => c.inner.past_rtt.average = 0 ∧
      c.sem.outstanding + c.sem.available = c.inner.current + c.inner.to_forget)
    stepOp_accounting ops (Controller.new mx cur t0) ⟨rfl, by simp [Controller.new]⟩
  omega

/-! ## Claim C5 -/

/-- Claim C5: whenever a decision fires (baseline seeded, decision instant
reached) with `current > 1` and either back pressure seen or the window
mean at least `baseline + baseline * 0.01`, the call sets `current` to
`current / 2` by integer floor division (hence the result stays at least
1), and removes exactly `current - current / 2` permits from the
semaphore, each either forgotten immediately from the available pool or
recorded as pending forget debt; outstanding permits are untouched. -/
theorem claim5_decrease (c : Controller) (start now : ℚ) (r : ResponseType)
    (hseed : 0 < c.inner.past_rtt.average)
    (htime : c.inner.next_update ≤ now)
    (hcur : 1 < c.inner.current)
    (hsig : (c.inner.noteResponse r).had_back_pressure = true ∨
      c.windowRtt start now ≥ c.inner.past_rtt.average +
        c.inner.past_rtt.average * thresholdRatio) :
    (c.adjust_to_response start now r).inner.current = c.inner.current / 2 ∧
    1 ≤ (c.adjust_to_response start now r).inner.current ∧
    (c.sem.available - (c.adjust_to_response start now r).sem.available) +
        ((c.adjust_to_response start now r).inner.to_forget - c.inner.to_forget) =
      c.inner.current - c.inner.current / 2 ∧
    (c.adjust_to_response start now r).sem.outstanding = c.sem.outstanding := by
  rw [adjust_seeded c start now r hseed htime]
  have hcond : 1 < (c.preInner start now r).current ∧
      ((c.preInner start now r).had_back_pressure = true ∨
        c.windowRtt start now ≥ (c.preInner start now r).past_rtt.average +
          (c.preInner start now r).past_rtt.average * thresholdRatio) := by
    refine ⟨by simpa using hcur, ?_⟩
    simpa using hsig
  have hd := decisionBody_decrease c.max c.sem (c.preInner start now r) now
    (c.windowRtt start now) hcond
  rw [preInner_current, preInner_to_forget] at hd
  dsimp only
  rw [hd.1, hd.2.1, hd.2.2]
  dsimp only
  refine ⟨rfl, ?_, ?_, rfl⟩
  · omega
  · omega

/-- Witness for claim C5: a seeded controller at `current = 4`, `max = 10`
with 5 available permits halves to 2 on a slow response. -/
theorem claim5_witness :
    ((⟨⟨5, 0⟩, 10, ⟨4, 0, ⟨1⟩, 0, ⟨0, 0⟩, false⟩⟩ : Controller).adjust_to_response
        0 10 ResponseType.Normal).inner.current = 4 / 2 ∧
    1 ≤ ((⟨⟨5, 0⟩, 10, ⟨4, 0, ⟨1⟩, 0, ⟨0, 0⟩, false⟩⟩ : Controller).adjust_to_response
        0 10 ResponseType.Normal).inner.current ∧
    (5 - ((⟨⟨5, 0⟩, 10, ⟨4, 0, ⟨1⟩, 0, ⟨0, 0⟩, false⟩⟩ : Controller).adjust_to_response
        0 10 ResponseType.Normal).sem.available) +
      (((⟨⟨5, 0⟩, 10, ⟨4, 0, ⟨1⟩, 0, ⟨0, 0⟩, false⟩⟩ : Controller).adjust_to_response
        0 10 ResponseType.Normal).inner.to_forget - 0) = 4 - 4 / 2 ∧
    ((⟨⟨5, 0⟩, 10, ⟨4, 0, ⟨1⟩, 0, ⟨0, 0⟩, false⟩⟩ : Controller).adjust_to_response
        0 10 ResponseType.Normal).sem.outstanding = 0 :=
  claim5_decrease ⟨⟨5, 0⟩, 10, ⟨4, 0, ⟨1⟩, 0, ⟨0, 0⟩, false⟩⟩ 0 10 ResponseType.Normal
    (by norm_num) (by norm_num) (by norm_num)
    (Or.inr (by norm_num [Controller.windowRtt, Mean.update, rttOf, thresholdRatio]))

/-! ## Claim C6 -/

/-- Claim C6: whenever a decision fires with `current < max`, no back
pressure observed and the window mean at most the baseline, the call
increments `current` by exactly 1 and adds exactly one permit to the
semaphore; and once `current = max` under the same fast no-backpressure
conditions, `current` stays at `max`. -/
theorem claim6_increase (c : Controller) (start now : ℚ) (r : ResponseType)
    (hseed : 0 < c.inner.past_rtt.average)
    (htime : c.inner.next_update ≤ now)
    (hnbp : (c.inner.noteResponse r).had_back_pressure = false)
    (hfast : c.windowRtt start now ≤ c.inner.past_rtt.average) :
    (c.inner.current < c.max →
      (c.adjust_to_response start now r).inner.current = c.inner.current + 1 ∧
      (c.adjust_to_response start now r).sem.available = c.sem.available + 1) ∧
    (c.inner.current = c.max →
      (c.adjust_to_response start now r).inner.current = c.max) := by
  rw [adjust_seeded c start now r hseed htime]
  have hnot : ¬ (1 < (c.preInner start now r).current ∧
      ((c.preInner start now r).had_back_pressure = true ∨
        c.windowRtt start now ≥ (c.preInner start now r).past_rtt.average +
          (c.preInner start now r).past_rtt.average * thresholdRatio)) := by
    rintro ⟨-, hb | hb⟩
    · rw [preInner_hbp, hnbp] at hb
      exact Bool.false_ne_true hb
    · rw [preInner_past_rtt] at hb
      have hpos : 0 < c.inner.past_rtt.average * thresholdRatio := by
        have ht : (0 : ℚ) < thresholdRatio := by norm_num [thresholdRatio]
        exact mul_pos hseed ht
      linarith
  constructor
  · intro hlt
    have hcond : (c.preInner start now r).current < c.max ∧
        (c.preInner start now r).had_back_pressure = false ∧
        c.windowRtt start now ≤ (c.preInner start now r).past_rtt.average := by
      refine ⟨by simpa using hlt, ?_, by simpa using hfast⟩
      rw [preInner_hbp]
      exact hnbp
    have hi := decisionBody_increase c.max c.sem (c.preInner start now r) now
      (c.windowRtt start now) hnot hcond
    rw [preInner_current] at hi
    dsimp only
    rw [hi.2.1, hi.1]
    exact ⟨rfl, rfl⟩
  · intro heq
    have hnot2 : ¬ ((c.preInner start now r).current < c.max ∧
        (c.preInner start now r).had_back_pressure = false ∧
        c.windowRtt start now ≤ (c.preInner start now r).past_rtt.average) := by
      rw [preInner_current, heq]
      rintro ⟨hb, -, -⟩
      exact lt_irrefl _ hb
    have hn := decisionBody_none c.max c.sem (c.preInner start now r) now
      (c.windowRtt start now) hnot hnot2
    rw [preInner_current] at hn
    dsimp only
    rw [hn.2.1, heq]

/-- Witness for claim C6: a seeded controller at `current = 3`, `max = 10`
with a fast response grows to 4 and gains a permit. -/
theorem claim6_witness :
    ((3 : Nat) < 10 →
      ((⟨⟨3, 0⟩, 10, ⟨3, 0, ⟨1⟩, 0, ⟨0, 0⟩, false⟩⟩ : Controller).adjust_to_response
          10 10 ResponseType.Normal).inner.current = 3 + 1 ∧
      ((⟨⟨3, 0⟩, 10, ⟨3, 0, ⟨1⟩, 0, ⟨0, 0⟩, false⟩⟩ : Controller).adjust_to_response
          10 10 ResponseType.Normal).sem.available = 3 + 1) ∧
    ((3 : Nat) = 10 →
      ((⟨⟨3, 0⟩, 10, ⟨3, 0, ⟨1⟩, 0, ⟨0, 0⟩, false⟩⟩ : Controller).adjust_to_response
          10 10 ResponseType.Normal).inner.current = 10) :=
  claim6_increase ⟨⟨3, 0⟩, 10, ⟨3, 0, ⟨1⟩, 0, ⟨0, 0⟩, false⟩⟩ 10 10 ResponseType.Normal
    (by norm_num) (by norm_num)
    (by simp [Inner.noteResponse])
    (by norm_num [Controller.windowRtt, Mean.update, rttOf])

/-! ## Claim C9 -/

/-- Claim C9: when a decision fires at instant `now`, the next decision
instant becomes `now + B` where `B` is the freshly folded baseline; and
any call arriving before the pending decision instant skips the decision
block entirely: `current`, the pending forget count, the semaphore, the
baseline and the decision instant are unchanged (while the call still
folds its sample into the window mean before the guard, the accumulator
being reset again at the end of the call). -/
theorem claim9_decision_cadence (c : Controller) (start now : ℚ) (r : ResponseType) :
    (0 < c.inner.past_rtt.average ∧ c.inner.next_update ≤ now →
      (c.adjust_to_response start now r).inner.next_update =
        now + (c.adjust_to_response start now r).inner.past_rtt.average) ∧
    (now < c.inner.next_update →
      (c.adjust_to_response start now r).inner.next_update = c.inner.next_update ∧
      (c.adjust_to_response start now r).inner.past_rtt = c.inner.past_rtt ∧
      (c.adjust_to_response start now r).inner.current = c.inner.current ∧
      (c.adjust_to_response start now r).inner.to_forget = c.inner.to_forget ∧
      (c.adjust_to_response start now r).sem = c.sem) := by
  constructor
  · intro hg
    rw [adjust_seeded c start now r hg.1 hg.2]
    dsimp only
    exact decisionBody_next_update c.max c.sem (c.preInner start now r) now
      (c.windowRtt start now)
  · intro htime
    rw [adjust_skipped c start now r htime]
    simp

/-- Witness for claim C9: on a seeded controller a decision at instant 10
reschedules to `10 + B` with `B` the updated baseline, and a premature
call leaves the decision state alone. -/
theorem claim9_witness :
    (0 < ((⟨⟨3, 0⟩, 10, ⟨3, 0, ⟨1⟩, 4, ⟨0, 0⟩, false⟩⟩ : Controller) :
        Controller).inner.past_rtt.average ∧
      ((⟨⟨3, 0⟩, 10, ⟨3, 0, ⟨1⟩, 4, ⟨0, 0⟩, false⟩⟩ : Controller) :
        Controller).inner.next_update ≤ 10 →
      ((⟨⟨3, 0⟩, 10, ⟨3, 0, ⟨1⟩, 4, ⟨0, 0⟩, false⟩⟩ : Controller).adjust_to_response
          0 10 ResponseType.Normal).inner.next_update =
        10 + ((⟨⟨3, 0⟩, 10, ⟨3, 0, ⟨1⟩, 4, ⟨0, 0⟩, false⟩⟩ : Controller).adjust_to_response
          0 10 ResponseType.Normal).inner.past_rtt.average) ∧
    ((10 : ℚ) < 4 →
      ((⟨⟨3, 0⟩, 10, ⟨3, 0, ⟨1⟩, 4, ⟨0, 0⟩, false⟩⟩ : Controller).adjust_to_response
          0 10 ResponseType.Normal).inner.next_update = 4 ∧
      ((⟨⟨3, 0⟩, 10, ⟨3, 0, ⟨1⟩, 4, ⟨0, 0⟩, false⟩⟩ : Controller).adjust_to_response
          0 10 ResponseType.Normal).inner.past_rtt = ⟨1⟩ ∧
      ((⟨⟨3, 0⟩, 10, ⟨3, 0, ⟨1⟩, 4, ⟨0, 0⟩, false⟩⟩ : Controller).adjust_to_response
          0 10 ResponseType.Normal).inner.current = 3 ∧
      ((⟨⟨3, 0⟩, 10, ⟨3, 0, ⟨1⟩, 4, ⟨0, 0⟩, false⟩⟩ : Controller).adjust_to_response
          0 10 ResponseType.Normal).inner.to_forget = 0 ∧
      ((⟨⟨3, 0⟩, 10, ⟨3, 0, ⟨1⟩, 4, ⟨0, 0⟩, false⟩⟩ : Controller).adjust_to_response
          0 10 ResponseType.Normal).sem = ⟨3, 0⟩) :=
  claim9_decision_cadence ⟨⟨3, 0⟩, 10, ⟨3, 0, ⟨1⟩, 4, ⟨0, 0⟩, false⟩⟩ 0 10 ResponseType.Normal

/-! ## Claim C7 -/

/-- Release under a positive outstanding count returns the permit to the
pool. -/
theorem release_pos (c : Controller) (h : 0 < c.sem.outstanding) :
    c.release = { c with sem := ⟨c.sem.available + 1, c.sem.outstanding - 1⟩ } := by
  simp only [Controller.release, if_pos h]

/-- An acquire poll pays `min debt available` units of debt from the pool. -/
theorem acquirePoll_to_forget (c : Controller) :
    ((c.acquirePoll).2).inner.to_forget =
      c.inner.to_forget - Nat.min c.inner.to_forget c.sem.available := by
  simp only [Controller.acquirePoll]
  split_ifs <;> rfl

/-- A granted acquire poll has fully paid the pending forget debt. -/
theorem acquirePoll_grant_clears_debt (c : Controller) (h : (c.acquirePoll).1 = true) :
    ((c.acquirePoll).2).inner.to_forget = 0 := by
  obtain ⟨⟨a, o⟩, mx, ⟨cur, tf, pr, nu, crt, hbp⟩⟩ := c
  simp only [Controller.acquirePoll, Nat.min_def] at h ⊢
  split_ifs at h ⊢ with h1 h2 <;> first | omega | simp_all

/-- Controller state used to refute claim C7: one unit of forget debt is
pending while permits are checked out and none is available. -/
def debtState : Controller := ⟨⟨0, 2⟩, 2, ⟨1, 1, ⟨1⟩, 0, ⟨0, 0⟩, false⟩⟩

/-- Claim C7 as stated is false: releasing a permit while the pending
forget debt is positive does not destroy the permit and does not
decrement the debt; the permit goes back to the available pool and the
debt is unchanged. -/
theorem claim7_counterexample :
    0 < debtState.inner.to_forget ∧
    (debtState.release).inner.to_forget ≠ debtState.inner.to_forget - 1 ∧
    (debtState.release).sem.available = debtState.sem.available + 1 := by decide

/-- Claim C7 (amended): dropping a permit always returns it to the
available pool and leaves the pending forget debt unchanged; the debt is
instead paid on the acquire path, where a poll destroys
`min debt available` available permits, and a permit is granted only once
the debt is fully paid. -/
theorem claim7_release_returns_permit (c : Controller) (h : 0 < c.sem.outstanding) :
    (c.release).sem.available = c.sem.available + 1 ∧
    (c.release).sem.outstanding = c.sem.outstanding - 1 ∧
    (c.release).inner.to_forget = c.inner.to_forget ∧
    ((c.acquirePoll).2).inner.to_forget =
      c.inner.to_forget - Nat.min c.inner.to_forget c.sem.available ∧
    ((c.acquirePoll).1 = true → ((c.acquirePoll).2).inner.to_forget = 0) := by
  rw [release_pos c h]
  exact ⟨rfl, rfl, rfl, acquirePoll_to_forget c, acquirePoll_grant_clears_debt c⟩

/-- Witness for claim C7 (amended) at the concrete debt state. -/
theorem claim7_witness :
    (debtState.release).sem.available = debtState.sem.available + 1 ∧
    (debtState.release).sem.outstanding = debtState.sem.outstanding - 1 ∧
    (debtState.release).inner.to_forget = debtState.inner.to_forget ∧
    ((debtState.acquirePoll).2).inner.to_forget =
      debtState.inner.to_forget - Nat.min debtState.inner.to_forget debtState.sem.available ∧
    ((debtState.acquirePoll).1 = true → ((debtState.acquirePoll).2).inner.to_forget = 0) :=
  claim7_release_returns_permit debtState (by decide)

/-! ## Claim C8 -/

/-- Scenario start state for claim C8: capacity `k`, all `k` permits
checked out, no pending debt. -/
def c8start (k : Nat) : Controller := ⟨⟨0, k⟩, k, ⟨k, 0, ⟨0⟩, 0, ⟨0, 0⟩, false⟩⟩

/-- Closed form for `n` releases when at least `n` permits are held. -/
theorem releasesN_spec (n : Nat) : ∀ (c : Controller), n ≤ c.sem.outstanding →
    releasesN n c = { c with sem := ⟨c.sem.available + n, c.sem.outstanding - n⟩ } := by
  induction n with
  | zero =>
    intro c hn
    obtain ⟨⟨a, o⟩, mx, i⟩ := c
    simp [releasesN]
  | succ n ih =>
    intro c hn
    obtain ⟨⟨a, o⟩, mx, i⟩ := c
    have hn2 : n + 1 ≤ o := hn
    have ho : 0 < o := Nat.lt_of_lt_of_le (Nat.succ_pos n) hn
    show releasesN n (Controller.release ⟨⟨a, o⟩, mx, i⟩) = _
    rw [release_pos _ ho]
    rw [ih _ (show n ≤ o - 1 by omega)]
    have e1 : a + 1 + n = a + (n + 1) := by omega
    have e2 : o - 1 - n = o - (n + 1) := by omega
    rw [e1, e2]

/-- With no pending debt, `n` acquire polls all grant while `n` permits
are available, leaving `available - n` in the pool. -/
theorem acquireRuns_zero_debt (n : Nat) : ∀ (c : Controller),
    c.inner.to_forget = 0 → n ≤ c.sem.available →
    (acquireRuns n c).1 = true ∧
    (acquireRuns n c).2.sem.available = c.sem.available - n ∧
    (acquireRuns n c).2.inner.to_forget = 0 := by
  induction n with
  | zero =>
    intro c h0 hn
    exact ⟨rfl, by simp [acquireRuns], by simpa [acquireRuns] using h0⟩
  | succ n ih =>
    intro c h0 hn
    obtain ⟨⟨a, o⟩, mx, ⟨cur, tf, pr, nu, crt, hbp⟩⟩ := c
    have htf : tf = 0 := h0
    subst htf
    have hn2 : n + 1 ≤ a := hn
    have ha : 0 < a := Nat.lt_of_lt_of_le (Nat.succ_pos n) hn
    have hpoll : Controller.acquirePoll ⟨⟨a, o⟩, mx, ⟨cur, 0, pr, nu, crt, hbp⟩⟩ =
        (true, ⟨⟨a - 1, o + 1⟩, mx, ⟨cur, 0, pr, nu, crt, hbp⟩⟩) := by
      simp only [Controller.acquirePoll]
      rw [if_pos]
      · simp
      · simpa using ha
    have hr := ih ⟨⟨a - 1, o + 1⟩, mx, ⟨cur, 0, pr, nu, crt, hbp⟩⟩ rfl
      (show n ≤ a - 1 by omega)
    rw [acquireRuns, hpoll]
    show (acquireRuns n ⟨⟨a - 1, o + 1⟩, mx, ⟨cur, 0, pr, nu, crt, hbp⟩⟩).1 = true ∧
      (acquireRuns n ⟨⟨a - 1, o + 1⟩, mx, ⟨cur, 0, pr, nu, crt, hbp⟩⟩).2.sem.available
        = a - (n + 1) ∧
      (acquireRuns n ⟨⟨a - 1, o + 1⟩, mx, ⟨cur, 0, pr, nu, crt, hbp⟩⟩).2.inner.to_forget = 0
    refine ⟨hr.1, ?_, hr.2.2⟩
    rw [hr.2.1]
    show a - 1 - n = a - (n + 1)
    omega

/-- An acquire poll on an empty pool with no debt reports Pending. -/
theorem acquirePoll_pending_empty (c : Controller)
    (h0 : c.inner.to_forget = 0) (ha : c.sem.available = 0) :
    (c.acquirePoll).1 = false := by
  obtain ⟨⟨a, o⟩, mx, ⟨cur, tf, pr, nu, crt, hbp⟩⟩ := c
  have htf : tf = 0 := h0
  have hav : a = 0 := ha
  subst htf
  subst hav
  simp [Controller.acquirePoll]

/-- Claim C8: with capacity `k` and all `k` permits checked out, forgetting
`m ≤ k` permits never blocks and never fails - the whole shortfall is
recorded as debt and no outstanding permit is revoked; the `k` held
permits can all be released normally; afterwards exactly `k - m` acquires
succeed and the next one finds the pool exhausted. -/
theorem claim8_shrink_with_all_checked_out (k m : Nat) (hm : m ≤ k) :
    ((c8start k).forgetPermits m).sem.outstanding = k ∧
    ((c8start k).forgetPermits m).sem.available = 0 ∧
    ((c8start k).forgetPermits m).inner.to_forget = m ∧
    (releasesN k ((c8start k).forgetPermits m)).sem.available = k ∧
    (releasesN k ((c8start k).forgetPermits m)).sem.outstanding = 0 ∧
    (acquireRuns (k - m) (releasesN k ((c8start k).forgetPermits m))).1 = true ∧
    ((acquireRuns (k - m) (releasesN k ((c8start k).forgetPermits m))).2.acquirePoll).1
      = false := by
  have h1 : (c8start k).forgetPermits m =
      ⟨⟨0, k⟩, k, ⟨k, m, ⟨0⟩, 0, ⟨0, 0⟩, false⟩⟩ := by
    simp [c8start, Controller.forgetPermits, forgetLoop_spec]
  rw [h1]
  have h2 : releasesN k (⟨⟨0, k⟩, k, ⟨k, m, ⟨0⟩, 0, ⟨0, 0⟩, false⟩⟩ : Controller) =
      ⟨⟨k, 0⟩, k, ⟨k, m, ⟨0⟩, 0, ⟨0, 0⟩, false⟩⟩ := by
    rw [releasesN_spec k _ (by simp)]
    simp
  rw [h2]
  have hp1 : m < k → Controller.acquirePoll ⟨⟨k, 0⟩, k, ⟨k, m, ⟨0⟩, 0, ⟨0, 0⟩, false⟩⟩ =
      (true, ⟨⟨k - m - 1, 0 + 1⟩, k, ⟨k, m - m, ⟨0⟩, 0, ⟨0, 0⟩, false⟩⟩) := by
    intro hlt
    simp only [Controller.acquirePoll, Nat.min_def]
    rw [if_pos hm, if_pos (Nat.sub_pos_of_lt hlt)]
  refine ⟨rfl, rfl, rfl, rfl, rfl, ?_, ?_⟩
  · rcases Nat.lt_or_ge m k with hlt | hge
    · have hk : k - m = (k - m - 1) + 1 := by omega
      rw [hk, acquireRuns, hp1 hlt]
      show (acquireRuns (k - m - 1)
        ⟨⟨k - m - 1, 0 + 1⟩, k, ⟨k, m - m, ⟨0⟩, 0, ⟨0, 0⟩, false⟩⟩).1 = true
      exact (acquireRuns_zero_debt (k - m - 1) _
        (show m - m = 0 by omega)
        (show k - m - 1 ≤ k - m - 1 from Nat.le_refl _)).1
    · have hkm : m = k := Nat.le_antisymm hm hge
      subst hkm
      rw [Nat.sub_self]
      rfl
  · rcases Nat.lt_or_ge m k with hlt | hge
    · have hk : k - m = (k - m - 1) + 1 := by omega
      rw [hk, acquireRuns, hp1 hlt]
      show (Controller.acquirePoll (acquireRuns (k - m - 1)
        ⟨⟨k - m - 1, 0 + 1⟩, k, ⟨k, m - m, ⟨0⟩, 0, ⟨0, 0⟩, false⟩⟩).2).1 = false
      have hr := acquireRuns_zero_debt (k - m - 1)
        ⟨⟨k - m - 1, 0 + 1⟩, k, ⟨k, m - m, ⟨0⟩, 0, ⟨0, 0⟩, false⟩⟩
        (show m - m = 0 by omega)
        (show k - m - 1 ≤ k - m - 1 from Nat.le_refl _)
      refine acquirePoll_pending_empty _ hr.2.2 ?_
      rw [hr.2.1]
      show k - m - 1 - (k - m - 1) = 0
      omega
    · have hkm : m = k := Nat.le_antisymm hm hge
      subst hkm
      rw [Nat.sub_self]
      show (Controller.acquirePoll
        ⟨⟨m, 0⟩, m, ⟨m, m, ⟨0⟩, 0, ⟨0, 0⟩, false⟩⟩).1 = false
      simp [Controller.acquirePoll, Nat.min_def]

/-- Witness for claim C8 at `k = 3`, `m = 2`. -/
theorem claim8_witness :
    ((c8start 3).forgetPermits 2).sem.outstanding = 3 ∧
    ((c8start 3).forgetPermits 2).sem.available = 0 ∧
    ((c8start 3).forgetPermits 2).inner.to_forget = 2 ∧
    (releasesN 3 ((c8start 3).forgetPermits 2)).sem.available = 3 ∧
    (releasesN 3 ((c8start 3).forgetPermits 2)).sem.outstanding = 0 ∧
    (acquireRuns (3 - 2) (releasesN 3 ((c8start 3).forgetPermits 2))).1 = true ∧
    ((acquireRuns (3 - 2) (releasesN 3 ((c8start 3).forgetPermits 2))).2.acquirePoll).1
      = false :=
  claim8_shrink_with_all_checked_out 3 2 (by decide)

/-! ## Claim C10 -/

/-- Claim C10 as stated is false: the window accumulator does not persist
between calls.  After a first call that fires no decision (the baseline is
still 0 and no decision point occurred), the accumulator has been reset to
empty anyway, so a second call with sample 3 computes a window mean of 3,
not the arithmetic mean 2 of the two samples 1 and 3 folded since the
last decision point. -/
theorem claim10_counterexample :
    ((Controller.new 10 1 0).adjust_to_response 0 1 ResponseType.Normal).inner.current_rtt
      = Mean.reset ∧
    Controller.windowRtt ((Controller.new 10 1 0).adjust_to_response 0 1 ResponseType.Normal)
      0 3 = 3 ∧
    ¬ ((3 : ℚ) = (1 + 3) / 2) := by
  refine ⟨?_, ?_, by norm_num⟩
  · rw [adjust_unseeded _ _ _ _ rfl]
  · rw [adjust_unseeded _ _ _ _ rfl]
    show (Mean.update Mean.reset (rttOf 0 3)).1 = 3
    norm_num [Mean.update, Mean.reset, rttOf]

/-- Claim C10 (amended): the window accumulator is reset to empty after
every `adjust_to_response` call, whether or not a decision fired; hence
the `window_rtt` compared at a decision point is the mean of the samples
folded since the previous call, that is, the current call's rtt sample
alone. -/
theorem claim10_window_reset_every_call (c : Controller) (start now : ℚ)
    (r : ResponseType) :
    (c.adjust_to_response start now r).inner.current_rtt = Mean.reset ∧
    (c.inner.current_rtt = Mean.reset →
      c.windowRtt start now = rttOf start now) := by
  constructor
  · by_cases hg : 0 < c.inner.past_rtt.average ∧ c.inner.next_update ≤ now
    · rw [adjust_seeded c start now r hg.1 hg.2]
    · rw [adjust_noDecision c start now r hg]
  · intro h
    rw [Controller.windowRtt, h]
    show (Mean.update Mean.reset (rttOf start now)).1 = rttOf start now
    simp [Mean.update, Mean.reset]

/-- Witness for claim C10 (amended) on a fresh controller. -/
theorem claim10_witness :
    ((Controller.new 10 1 0).adjust_to_response 0 2 ResponseType.Normal).inner.current_rtt
      = Mean.reset ∧
    Controller.windowRtt (Controller.new 10 1 0) 0 2 = rttOf 0 2 :=
  ⟨(claim10_window_reset_every_call (Controller.new 10 1 0) 0 2 ResponseType.Normal).1,
   (claim10_window_reset_every_call (Controller.new 10 1 0) 0 2 ResponseType.Normal).2 rfl⟩

end AutoConcurrency
